import Mathlib

/-!
Shallow embedding of the packet dissection core of sngrep
(src/storage/packet/packet.c) together with theorems checking the
natural-language specification against it.

The file first translates the data model and the functions of packet.c
into Lean, then proves one theorem per claim.  Parts of the repository
that packet.c relies on but whose sources are not available
(packet.h accessors, the dissector registry lookup, the GObject
reference-counting machinery) are modelled from the specification and
marked as such in their doc comments.
-/

namespace Sngrep

/-- Modelled from the spec: the closed enumeration `PacketProtocol` of
protocol layers (declared in packet.h, which is not among the given
sources).  Only the kinds the spec names are included; each one is a
slot index in the protocol slot table. -/
inductive ProtocolKind where
  | link
  | ip
  | udp
  | tcp
  | tls
  | ws
  | sip
deriving DecidableEq, Repr, Fintype

/-- The slot indices in enumeration order, used by the teardown loop
`g_ptr_array_foreach_idx` which visits every slot index once. -/
def allProtocols : List ProtocolKind :=
  [.link, .ip, .udp, .tcp, .tls, .ws, .sip]

/-- Address value: network address plus port (address.h collaborator).
`address_new(ip, port)` builds one. -/
structure Address where
  ip : String
  port : Nat
deriving DecidableEq, Repr

/-- The `address_new` constructor of the Address collaborator. -/
def address_new (ip : String) (port : Nat) : Address :=
  { ip := ip, port := port }

/-- IP layer parsed data (packet_ip.h): source and destination network
addresses as written by the IP dissector. -/
structure PacketIpData where
  srcip : String
  dstip : String
deriving DecidableEq, Repr

/-- UDP layer parsed data (packet_udp.h): source and destination ports. -/
structure PacketUdpData where
  sport : Nat
  dport : Nat
deriving DecidableEq, Repr

/-- TCP layer parsed data (packet_tcp.h): source and destination ports. -/
structure PacketTcpData where
  sport : Nat
  dport : Nat
deriving DecidableEq, Repr

/-- One captured frame: capture timestamp in microseconds (a guint64 in
the source) and the raw byte buffer. -/
structure PacketFrame where
  ts : Nat
  data : List Nat
deriving DecidableEq, Repr

/-- Parsed data held in one protocol slot, a tagged view of the
`gpointer` entries of the `proto` GPtrArray.  Layers whose internal
structure the claims never inspect carry their raw payload. -/
inductive ProtocolData where
  | ipData (d : PacketIpData)
  | udpData (d : PacketUdpData)
  | tcpData (d : PacketTcpData)
  | rawData (k : ProtocolKind) (bytes : List Nat)
deriving DecidableEq, Repr

/-- The Packet aggregate (struct _Packet in packet.h, modelled from the
spec data model in section 3): the enum-indexed protocol slot table is
rendered as one typed optional field per slot, `frames` is the GList of
frames in append order, `src`/`dst` are the lazily cached addresses and
`input` the opaque capture source reference. -/
structure Packet where
  linkSlot : Option (List Nat) := none
  ipSlot : Option PacketIpData := none
  udpSlot : Option PacketUdpData := none
  tcpSlot : Option PacketTcpData := none
  tlsSlot : Option (List Nat) := none
  wsSlot : Option (List Nat) := none
  sipSlot : Option (List Nat) := none
  frames : List PacketFrame := []
  src : Option Address := none
  dst : Option Address := none
  input : Nat := 0
deriving DecidableEq, Repr

/-- The contents of the slot indexed by `k`, as the untyped `gpointer`
entry of the `proto` array viewed through its tag. -/
def getSlot (p : Packet) (k : ProtocolKind) : Option ProtocolData :=
  match k with
  | .link => (p.linkSlot).map (ProtocolData.rawData .link)
  | .ip => (p.ipSlot).map ProtocolData.ipData
  | .udp => (p.udpSlot).map ProtocolData.udpData
  | .tcp => (p.tcpSlot).map ProtocolData.tcpData
  | .tls => (p.tlsSlot).map (ProtocolData.rawData .tls)
  | .ws => (p.wsSlot).map (ProtocolData.rawData .ws)
  | .sip => (p.sipSlot).map (ProtocolData.rawData .sip)

/-- Modelled from the spec: `packet_has_type` (packet.h) — `has_layer`
is true iff the slot for that kind is populated. -/
def packet_has_type (p : Packet) (k : ProtocolKind) : Bool :=
  (getSlot p k).isSome

/-- Modelled from the spec: `packet_ip_data` (packet_ip.h) — the IP
slot's parsed data, or none when the IP layer has not resolved. -/
def packet_ip_data (p : Packet) : Option PacketIpData :=
  p.ipSlot

/-- packet_src_address: returns the cached source address when present;
otherwise requires the IP slot (g_return_val_if_fail gives NULL), takes
the source port from the UDP slot when that slot is populated and from
the TCP slot otherwise, then constructs and caches the Address.  The
returned pair is (result, updated packet). -/
def packet_src_address (p : Packet) : Option Address × Packet :=
  match p.src with
  | some a => (some a, p)
  | none =>
    match packet_ip_data p with
    | none => (none, p)
    | some ip =>
      if packet_has_type p .udp then
        match p.udpSlot with
        | none => (none, p)
        | some udp =>
          let a := address_new ip.srcip udp.sport
          (some a, { p with src := some a })
      else
        match p.tcpSlot with
        | none => (none, p)
        | some tcp =>
          let a := address_new ip.srcip tcp.sport
          (some a, { p with src := some a })

/-- packet_dst_address: same shape as packet_src_address, with the
destination network address and destination ports. -/
def packet_dst_address (p : Packet) : Option Address × Packet :=
  match p.dst with
  | some a => (some a, p)
  | none =>
    match packet_ip_data p with
    | none => (none, p)
    | some ip =>
      if packet_has_type p .udp then
        match p.udpSlot with
        | none => (none, p)
        | some udp =>
          let a := address_new ip.dstip udp.dport
          (some a, { p with dst := some a })
      else
        match p.tcpSlot with
        | none => (none, p)
        | some tcp =>
          let a := address_new ip.dstip tcp.dport
          (some a, { p with dst := some a })

/-- packet_transport: the transport label, a pure function of which
slots are populated. -/
def packet_transport (p : Packet) : String :=
  if packet_has_type p .udp then "UDP"
  else if packet_has_type p .tcp then
    if packet_has_type p .ws then
      if packet_has_type p .tls then "WSS" else "WS"
    else
      if packet_has_type p .tls then "TLS" else "TCP"
  else "???"

/-- packet_time: the timestamp of the last frame of the list
(g_list_last_data); g_return_val_if_fail yields the sentinel 0 when the
frame list is empty. -/
def packet_time (p : Packet) : Nat :=
  match p.frames.getLast? with
  | some last => last.ts
  | none => 0

/-- Unsigned 64-bit subtraction as C computes it on guint64 operands:
the mathematical difference reduced modulo 2^64. -/
def guint64_sub (a b : Nat) : Nat :=
  (a % 2 ^ 64 + 2 ^ 64 - b % 2 ^ 64) % 2 ^ 64

/-- The C cast `(gint) x` of a guint64 value: keep the low 32 bits and
reinterpret them as a two's-complement signed 32-bit integer. -/
def gint_of_guint64 (n : Nat) : Int :=
  let m : Nat := n % 2 ^ 32
  if m < 2 ^ 31 then (m : Int) else (m : Int) - 2 ^ 32

/-- packet_time_sorter: `(gint) (packet_time(*a) - packet_time(*b))` —
guint64 subtraction truncated to a signed 32-bit int. -/
def packet_time_sorter (a b : Packet) : Int :=
  gint_of_guint64 (guint64_sub (packet_time a) (packet_time b))

/-- packet_first_frame: the first-appended frame (g_list_first_data),
or none when the list is empty (g_return_val_if_fail). -/
def packet_first_frame (p : Packet) : Option PacketFrame :=
  p.frames.head?

/-- packet_frame_seconds: timestamp divided by G_USEC_PER_SEC. -/
def packet_frame_seconds (f : PacketFrame) : Nat :=
  f.ts / 1000000

/-- packet_frame_microseconds: `ts - (ts / G_USEC_PER_SEC) * G_USEC_PER_SEC`. -/
def packet_frame_microseconds (f : PacketFrame) : Nat :=
  f.ts - (f.ts / 1000000) * 1000000

/-- A dissector capability as the teardown needs it: the registry entry
found for a protocol kind (packet_dissector.h collaborator). -/
structure PacketDissector where
  id : ProtocolKind
deriving DecidableEq, Repr

/-- Modelled from the spec: the process-wide dissector registry,
read-only at teardown time; `storage_find_dissector` is its lookup and
may miss (returns none). -/
def Registry : Type := ProtocolKind → Option PacketDissector

/-- Observable teardown actions of packet_free, recorded in order: a
registry lookup for a slot, the invocation of a dissector's free
capability with a slot's data, the release of the frame list and the
drop of the cached addresses. -/
inductive FreeEvent where
  | lookup (k : ProtocolKind)
  | freeData (k : ProtocolKind) (d : ProtocolData)
  | freeFrames (fs : List PacketFrame)
  | dropAddr (src dst : Option Address)
deriving DecidableEq, Repr

/-- packet_proto_free: when the slot for `k` is populated, look up its
dissector with storage_find_dissector and hand the packet to
packet_dissector_free_data.  Modelled from the spec:
packet_dissector_free_data (packet_dissector.c, not among the given
sources) skips the cleanup when the registry lookup missed, so the
free capability runs only for a present dissector. -/
def packet_proto_free (reg : Registry) (k : ProtocolKind) (p : Packet) : List FreeEvent :=
  if packet_has_type p k then
    FreeEvent.lookup k ::
      (match reg k, getSlot p k with
       | some _, some d => [FreeEvent.freeData k d]
       | _, _ => [])
  else []

/-- packet_free: run packet_proto_free over every slot index in order,
then free the frame list, then free the cached addresses.  The result
is the ordered trace of teardown actions. -/
def packet_free (reg : Registry) (p : Packet) : List FreeEvent :=
  (allProtocols.map (fun k => packet_proto_free reg k p)).flatten
    ++ [FreeEvent.freeFrames p.frames, FreeEvent.dropAddr p.src p.dst]

/-- Modelled from the spec: the reference-counted wrapper around a
Packet provided by the GObject machinery — the atomic refcount plus,
for observation, how many times dispose has run the teardown. -/
structure PacketObj where
  packet : Packet
  refcount : Nat
  destroyCount : Nat
deriving DecidableEq, Repr

/-- packet_ref: g_object_ref increments the reference count. -/
def packet_ref (s : PacketObj) : PacketObj :=
  { s with refcount := s.refcount + 1 }

/-- packet_unref: g_object_unref decrements the reference count; the
transition 1 to 0 runs packet_dispose, which performs the teardown
(packet_free) exactly once. -/
def packet_unref (s : PacketObj) : PacketObj :=
  if s.refcount = 1 then
    { s with refcount := 0, destroyCount := s.destroyCount + 1 }
  else
    { s with refcount := s.refcount - 1 }

/-- packet_new: a fresh Packet bound to its capture input, held by the
creator with refcount 1 and its teardown not yet run. -/
def packet_new (input : Nat) : PacketObj :=
  { packet := { input := input }, refcount := 1, destroyCount := 0 }

/-- One acquire or release step by some consumer. -/
inductive RefOp where
  | acq
  | rel
deriving DecidableEq, Repr

/-- Run a sequence of acquire/release steps on the wrapper. -/
def runRefOps (s : PacketObj) (ops : List RefOp) : PacketObj :=
  ops.foldl (fun t op => match op with | .acq => packet_ref t | .rel => packet_unref t) s

/-! Concrete sample data used by the witnesses. -/

/-- Sample IP layer data. -/
def ipEx : PacketIpData := { srcip := "192.168.1.1", dstip := "192.168.1.2" }

/-- Sample UDP layer data. -/
def udpEx : PacketUdpData := { sport := 5060, dport := 5062 }

/-- Sample TCP layer data. -/
def tcpEx : PacketTcpData := { sport := 5080, dport := 5082 }

/-- Sample frame with a given timestamp. -/
def frameEx (t : Nat) : PacketFrame := { ts := t, data := [1, 2, 3] }

/-- Packet with IP and UDP resolved. -/
def pUdp : Packet := { ipSlot := some ipEx, udpSlot := some udpEx }

/-- Packet with IP and TCP resolved. -/
def pTcp : Packet := { ipSlot := some ipEx, tcpSlot := some tcpEx }

/-- Packet with only the IP layer resolved. -/
def pIpOnly : Packet := { ipSlot := some ipEx }

/-- Packet with three frames appended with out-of-order timestamps. -/
def pFrames : Packet := { frames := [frameEx 300, frameEx 100, frameEx 200] }

/-! Theorems for the claims. -/

/-- Claim C2: packet_transport is a pure function of which slots are
populated and returns exactly the literals "UDP", "WSS", "WS", "TLS",
"TCP" and "???" according to the transport label table. -/
theorem C2_packet_transport_table (p : Packet) :
    (packet_has_type p .udp = true → packet_transport p = "UDP")
  ∧ (packet_has_type p .udp = false → packet_has_type p .tcp = true →
       packet_has_type p .ws = true → packet_has_type p .tls = true →
       packet_transport p = "WSS")
  ∧ (packet_has_type p .udp = false → packet_has_type p .tcp = true →
       packet_has_type p .ws = true → packet_has_type p .tls = false →
       packet_transport p = "WS")
  ∧ (packet_has_type p .udp = false → packet_has_type p .tcp = true →
       packet_has_type p .ws = false → packet_has_type p .tls = true →
       packet_transport p = "TLS")
  ∧ (packet_has_type p .udp = false → packet_has_type p .tcp = true →
       packet_has_type p .ws = false → packet_has_type p .tls = false →
       packet_transport p = "TCP")
  ∧ (packet_has_type p .udp = false → packet_has_type p .tcp = false →
       packet_transport p = "???")
  ∧ (∀ q : Packet, (∀ k, packet_has_type p k = packet_has_type q k) →
       packet_transport p = packet_transport q) := by
  refine ⟨?_, ?_, ?_, ?_, ?_, ?_, ?_⟩
  · intro h; simp [packet_transport, h]
  · intro h1 h2 h3 h4; simp [packet_transport, h1, h2, h3, h4]
  · intro h1 h2 h3 h4; simp [packet_transport, h1, h2, h3, h4]
  · intro h1 h2 h3 h4; simp [packet_transport, h1, h2, h3, h4]
  · intro h1 h2 h3 h4; simp [packet_transport, h1, h2, h3, h4]
  · intro h1 h2; simp [packet_transport, h1, h2]
  · intro q h
    simp only [packet_transport, h ProtocolKind.udp, h ProtocolKind.tcp,
      h ProtocolKind.ws, h ProtocolKind.tls]

/-- Witness for C2 at concrete packets: a UDP packet is labelled "UDP",
a plain TCP packet "TCP", and an empty packet "???". -/
theorem C2_packet_transport_table_witness :
    packet_transport pUdp = "UDP" ∧ packet_transport pTcp = "TCP"
  ∧ packet_transport ({} : Packet) = "???" :=
  ⟨(C2_packet_transport_table pUdp).1 rfl,
   (C2_packet_transport_table pTcp).2.2.2.2.1 rfl rfl rfl rfl,
   (C2_packet_transport_table {}).2.2.2.2.2.1 rfl rfl⟩

/-- Claim C8: last_frame_timestamp (packet_time) returns the
last-appended frame's timestamp and first_frame the earliest-appended
frame, whatever the timestamp values; on an empty frame list,
packet_time returns the sentinel 0 and packet_first_frame none. -/
theorem C8_frame_observers (p : Packet) :
    (∀ f fs, p.frames = fs ++ [f] → packet_time p = f.ts)
  ∧ (∀ f fs, p.frames = f :: fs → packet_first_frame p = some f)
  ∧ (p.frames = [] → packet_time p = 0 ∧ packet_first_frame p = none) := by
  refine ⟨?_, ?_, ?_⟩
  · intro f fs h; simp [packet_time, h]
  · intro f fs h; simp [packet_first_frame, h]
  · intro h; simp [packet_time, packet_first_frame, h]

/-- Witness for C8 at a packet whose frames were appended with
timestamps 300, 100, 200: last-appended wins (200), first-appended is
the 300 frame. -/
theorem C8_frame_observers_witness :
    packet_time pFrames = 200 ∧ packet_first_frame pFrames = some (frameEx 300) :=
  ⟨(C8_frame_observers pFrames).1 (frameEx 200) [frameEx 300, frameEx 100] rfl,
   (C8_frame_observers pFrames).2.1 (frameEx 300) [frameEx 100, frameEx 200] rfl⟩

/-- Helper: packet_dst_address never changes the cached source
address, whichever branch it takes. -/
lemma packet_dst_address_keeps_src (p : Packet) :
    (packet_dst_address p).2.src = p.src := by
  unfold packet_dst_address
  split
  · rfl
  · split
    · rfl
    · split
      · split <;> rfl
      · split <;> rfl

/-- Helper: packet_src_address never changes the cached destination
address, whichever branch it takes. -/
lemma packet_src_address_keeps_dst (p : Packet) :
    (packet_src_address p).2.dst = p.dst := by
  unfold packet_src_address
  split
  · rfl
  · split
    · rfl
    · split
      · split <;> rfl
      · split <;> rfl

/-- Helper: when packet_src_address returns an address, the returned
packet holds it in its source cache. -/
lemma packet_src_address_writes_cache (p p' : Packet) (a : Address)
    (h : packet_src_address p = (some a, p')) : p'.src = some a := by
  rcases hs : p.src with _ | b
  · rcases hip : p.ipSlot with _ | ip
    · simp [packet_src_address, packet_ip_data, hs, hip] at h
    · rcases hudp : p.udpSlot with _ | udp
      · rcases htcp : p.tcpSlot with _ | tcp
        · simp [packet_src_address, packet_ip_data, packet_has_type, getSlot,
            hs, hip, hudp, htcp] at h
        · simp [packet_src_address, packet_ip_data, packet_has_type, getSlot,
            hs, hip, hudp, htcp, Prod.ext_iff] at h
          obtain ⟨h1, h2⟩ := h
          subst h2
          simp [← h1]
      · simp [packet_src_address, packet_ip_data, packet_has_type, getSlot,
          hs, hip, hudp, Prod.ext_iff] at h
        obtain ⟨h1, h2⟩ := h
        subst h2
        simp [← h1]
  · simp [packet_src_address, hs, Prod.ext_iff] at h
    obtain ⟨h1, h2⟩ := h
    subst h2
    rw [hs, h1]

/-- Helper: when packet_dst_address returns an address, the returned
packet holds it in its destination cache. -/
lemma packet_dst_address_writes_cache (p p' : Packet) (a : Address)
    (h : packet_dst_address p = (some a, p')) : p'.dst = some a := by
  rcases hs : p.dst with _ | b
  · rcases hip : p.ipSlot with _ | ip
    · simp [packet_dst_address, packet_ip_data, hs, hip] at h
    · rcases hudp : p.udpSlot with _ | udp
      · rcases htcp : p.tcpSlot with _ | tcp
        · simp [packet_dst_address, packet_ip_data, packet_has_type, getSlot,
            hs, hip, hudp, htcp] at h
        · simp [packet_dst_address, packet_ip_data, packet_has_type, getSlot,
            hs, hip, hudp, htcp, Prod.ext_iff] at h
          obtain ⟨h1, h2⟩ := h
          subst h2
          simp [← h1]
      · simp [packet_dst_address, packet_ip_data, packet_has_type, getSlot,
          hs, hip, hudp, Prod.ext_iff] at h
        obtain ⟨h1, h2⟩ := h
        subst h2
        simp [← h1]
  · simp [packet_dst_address, hs, Prod.ext_iff] at h
    obtain ⟨h1, h2⟩ := h
    subst h2
    rw [hs, h1]

/-- Claim C1: packet_dst_address returns the cached destination when
present; with no cache and an empty IP slot it returns none and leaves
the packet unchanged; otherwise it builds the Address from the IP
layer's destination address and the UDP destination port when the UDP
slot is populated, else the TCP destination port, and caches it. -/
theorem C1_packet_dst_address_spec (p : Packet) :
    (∀ a, p.dst = some a → packet_dst_address p = (some a, p))
  ∧ (p.dst = none → p.ipSlot = none → packet_dst_address p = (none, p))
  ∧ (∀ ip udp, p.dst = none → p.ipSlot = some ip → p.udpSlot = some udp →
      packet_dst_address p
        = (some (address_new ip.dstip udp.dport),
           { p with dst := some (address_new ip.dstip udp.dport) }))
  ∧ (∀ ip tcp, p.dst = none → p.ipSlot = some ip → p.udpSlot = none →
      p.tcpSlot = some tcp →
      packet_dst_address p
        = (some (address_new ip.dstip tcp.dport),
           { p with dst := some (address_new ip.dstip tcp.dport) })) := by
  refine ⟨?_, ?_, ?_, ?_⟩ <;> intros <;>
    simp_all [packet_dst_address, packet_ip_data, packet_has_type, getSlot]

/-- Witness for C1: destination addresses of concrete UDP and TCP
packets use the IP destination with the respective destination port. -/
theorem C1_packet_dst_address_spec_witness :
    (packet_dst_address pUdp).1 = some (address_new "192.168.1.2" 5062)
  ∧ (packet_dst_address pTcp).1 = some (address_new "192.168.1.2" 5082) := by
  have h1 := (C1_packet_dst_address_spec pUdp).2.2.1 ipEx udpEx rfl rfl rfl
  have h2 := (C1_packet_dst_address_spec pTcp).2.2.2 ipEx tcpEx rfl rfl rfl rfl
  exact ⟨by rw [h1]; rfl, by rw [h2]; rfl⟩

/-- Claim C6: packet_src_address returns the cached source when
present; with no cache it requires the IP slot (none otherwise); with
IP and UDP populated it combines the IP source address with the UDP
source port, with IP and TCP (no UDP) the TCP source port, caching the
result. -/
theorem C6_packet_src_address_spec (p : Packet) :
    (∀ a, p.src = some a → packet_src_address p = (some a, p))
  ∧ (p.src = none → p.ipSlot = none → packet_src_address p = (none, p))
  ∧ (∀ ip udp, p.src = none → p.ipSlot = some ip → p.udpSlot = some udp →
      packet_src_address p
        = (some (address_new ip.srcip udp.sport),
           { p with src := some (address_new ip.srcip udp.sport) }))
  ∧ (∀ ip tcp, p.src = none → p.ipSlot = some ip → p.udpSlot = none →
      p.tcpSlot = some tcp →
      packet_src_address p
        = (some (address_new ip.srcip tcp.sport),
           { p with src := some (address_new ip.srcip tcp.sport) })) := by
  refine ⟨?_, ?_, ?_, ?_⟩ <;> intros <;>
    simp_all [packet_src_address, packet_ip_data, packet_has_type, getSlot]

/-- Witness for C6: source addresses of concrete UDP and TCP packets
use the IP source with the respective source port. -/
theorem C6_packet_src_address_spec_witness :
    (packet_src_address pUdp).1 = some (address_new "192.168.1.1" 5060)
  ∧ (packet_src_address pTcp).1 = some (address_new "192.168.1.1" 5080) := by
  have h1 := (C6_packet_src_address_spec pUdp).2.2.1 ipEx udpEx rfl rfl rfl
  have h2 := (C6_packet_src_address_spec pTcp).2.2.2 ipEx tcpEx rfl rfl rfl rfl
  exact ⟨by rw [h1]; rfl, by rw [h2]; rfl⟩

/-- Claim C10: with the IP slot populated but neither UDP nor TCP
resolved and nothing cached, both address getters return none and
leave the packet untouched (no cache write), and once a transport slot
is later populated the same getters succeed. -/
theorem C10_no_transport_returns_empty (p : Packet) (ip : PacketIpData)
    (hip : p.ipSlot = some ip) (hudp : p.udpSlot = none) (htcp : p.tcpSlot = none)
    (hs : p.src = none) (hd : p.dst = none) :
    packet_src_address p = (none, p)
  ∧ packet_dst_address p = (none, p)
  ∧ (∀ tcp : PacketTcpData,
       (packet_src_address { p with tcpSlot := some tcp }).1
         = some (address_new ip.srcip tcp.sport)
     ∧ (packet_dst_address { p with tcpSlot := some tcp }).1
         = some (address_new ip.dstip tcp.dport))
  ∧ (∀ udp : PacketUdpData,
       (packet_src_address { p with udpSlot := some udp }).1
         = some (address_new ip.srcip udp.sport)
     ∧ (packet_dst_address { p with udpSlot := some udp }).1
         = some (address_new ip.dstip udp.dport)) := by
  refine ⟨?_, ?_, ?_, ?_⟩
  · simp [packet_src_address, packet_ip_data, packet_has_type, getSlot,
      hip, hudp, htcp, hs]
  · simp [packet_dst_address, packet_ip_data, packet_has_type, getSlot,
      hip, hudp, htcp, hd]
  · intro tcp
    constructor <;>
      simp [packet_src_address, packet_dst_address, packet_ip_data,
        packet_has_type, getSlot, hip, hudp, htcp, hs, hd]
  · intro udp
    constructor <;>
      simp [packet_src_address, packet_dst_address, packet_ip_data,
        packet_has_type, getSlot, hip, hs, hd]

/-- Witness for C10: the IP-only packet yields no source or destination
address, and adding a TCP slot makes the source succeed. -/
theorem C10_no_transport_returns_empty_witness :
    packet_src_address pIpOnly = (none, pIpOnly)
  ∧ (packet_src_address { pIpOnly with tcpSlot := some tcpEx }).1
      = some (address_new "192.168.1.1" 5080) := by
  have h := C10_no_transport_returns_empty pIpOnly ipEx rfl rfl rfl rfl rfl
  exact ⟨h.1, (h.2.2.1 tcpEx).1⟩

/-- Claim C7: the address getters are memoized and write-once — after
a first successful computation the cache holds the address, every
later call returns the identical value without changing the packet,
and the other getter does not disturb the cached entry. -/
theorem C7_address_memoization (p p' : Packet) (a : Address) :
    (packet_src_address p = (some a, p') →
       p'.src = some a
       ∧ packet_src_address p' = (some a, p')
       ∧ (packet_dst_address p').2.src = some a)
  ∧ (packet_dst_address p = (some a, p') →
       p'.dst = some a
       ∧ packet_dst_address p' = (some a, p')
       ∧ (packet_src_address p').2.dst = some a) := by
  constructor
  · intro h
    have hc := packet_src_address_writes_cache p p' a h
    exact ⟨hc, by simp [packet_src_address, hc],
      by rw [packet_dst_address_keeps_src, hc]⟩
  · intro h
    have hc := packet_dst_address_writes_cache p p' a h
    exact ⟨hc, by simp [packet_dst_address, hc],
      by rw [packet_src_address_keeps_dst, hc]⟩

/-- Witness for C7: computing the source address of the UDP packet
once caches it, and a second identical call returns the same value and
state. -/
theorem C7_address_memoization_witness :
    packet_src_address { pUdp with src := some (address_new "192.168.1.1" 5060) }
      = (some (address_new "192.168.1.1" 5060),
         { pUdp with src := some (address_new "192.168.1.1" 5060) }) :=
  ((C7_address_memoization pUdp
      { pUdp with src := some (address_new "192.168.1.1" 5060) }
      (address_new "192.168.1.1" 5060)).1 rfl).2.1

/-- Claim C3: the claim asks for a correct three-way comparison, but
packet_time_sorter casts a guint64 difference to gint: at packet times
0 and 2^32 microseconds it returns 0 (equal) although the first packet
is strictly earlier, so the subtraction-based sorter is not a correct
comparison when the timestamps are far apart. -/
theorem C3_sorter_bug :
    packet_time ({ frames := [frameEx 0] } : Packet)
      < packet_time ({ frames := [{ ts := 2 ^ 32, data := [] }] } : Packet)
  ∧ packet_time_sorter ({ frames := [frameEx 0] } : Packet)
      ({ frames := [{ ts := 2 ^ 32, data := [] }] } : Packet) = 0 := by
  constructor
  · decide
  · decide

/-- Registry for the witnesses: every protocol kind has a dissector. -/
def regFull : Registry := fun k => some { id := k }

/-- Registry for the witnesses: the UDP dissector is missing. -/
def regMissUdp : Registry := fun k =>
  match k with
  | .udp => none
  | _ => some { id := k }

/-- Helper: how many lookup events for kind `k` one slot's teardown
step emits — one when the visited slot is `k` and populated. -/
lemma count_lookup_proto_free (reg : Registry) (k k' : ProtocolKind) (p : Packet) :
    (packet_proto_free reg k' p).count (FreeEvent.lookup k)
      = if k' = k ∧ packet_has_type p k' = true then 1 else 0 := by
  unfold packet_proto_free
  by_cases h : packet_has_type p k' = true
  · rw [if_pos h]
    by_cases hk : k' = k
    · subst hk
      rcases hr : reg k' with _ | dd <;> rcases hs : getSlot p k' with _ | d0 <;>
        simp_all [List.count_cons, packet_has_type]
    · rcases hr : reg k' with _ | dd <;> rcases hs : getSlot p k' with _ | d0 <;>
        simp_all [List.count_cons, packet_has_type]
  · simp [h]

/-- Helper: how many free-capability invocations with data `d` for
kind `k` one slot's teardown step emits — one exactly when the visited
slot is `k`, its dissector is registered and the slot holds `d`. -/
lemma count_freeData_proto_free (reg : Registry) (k k' : ProtocolKind)
    (d : ProtocolData) (p : Packet) :
    (packet_proto_free reg k' p).count (FreeEvent.freeData k d)
      = if k' = k ∧ (reg k').isSome = true ∧ getSlot p k' = some d then 1 else 0 := by
  unfold packet_proto_free
  by_cases h : packet_has_type p k' = true
  · rw [if_pos h]
    rcases hr : reg k' with _ | dd
    · rcases hs : getSlot p k' with _ | d0 <;>
        simp_all [List.count_cons, packet_has_type]
    · rcases hs : getSlot p k' with _ | d0
      · simp_all [packet_has_type]
      · by_cases hk : k' = k
        · subst hk
          by_cases hd : d0 = d <;> simp_all [List.count_cons]
        · simp_all [List.count_cons]
  · have hslot : getSlot p k' = none := by
      simp [packet_has_type] at h
      exact h
    simp [h, hslot]

/-- Helper: lookup events in the whole teardown trace — exactly one
per populated slot, none for an unpopulated slot. -/
lemma count_lookup_packet_free (reg : Registry) (p : Packet) (k : ProtocolKind) :
    (packet_free reg p).count (FreeEvent.lookup k)
      = if packet_has_type p k = true then 1 else 0 := by
  cases k <;>
    simp [packet_free, allProtocols, List.count_append,
      count_lookup_proto_free, List.count_cons]

/-- Helper: free-capability invocations in the whole teardown trace —
exactly one per slot that holds `d` and has a registered dissector. -/
lemma count_freeData_packet_free (reg : Registry) (p : Packet)
    (k : ProtocolKind) (d : ProtocolData) :
    (packet_free reg p).count (FreeEvent.freeData k d)
      = if (reg k).isSome = true ∧ getSlot p k = some d then 1 else 0 := by
  cases k <;>
    simp [packet_free, allProtocols, List.count_append,
      count_freeData_proto_free, List.count_cons]

/-- Claim C4: with a dissector registered for every populated slot,
packet_free performs exactly one registry lookup and one free
invocation with that slot's data per populated slot, none for
unpopulated slots, every free invocation carries the slot's data, and
the trace ends by releasing the frames and dropping both cached
addresses. -/
theorem C4_destroy_free_iff_populated (reg : Registry) (p : Packet)
    (hreg : ∀ k, packet_has_type p k = true → (reg k).isSome = true) :
    (∀ k, (packet_free reg p).count (FreeEvent.lookup k)
        = if packet_has_type p k = true then 1 else 0)
  ∧ (∀ k d, getSlot p k = some d →
        (packet_free reg p).count (FreeEvent.freeData k d) = 1)
  ∧ (∀ k, packet_has_type p k = false →
        ∀ d, (packet_free reg p).count (FreeEvent.freeData k d) = 0)
  ∧ (∀ k d, FreeEvent.freeData k d ∈ packet_free reg p → getSlot p k = some d)
  ∧ (∃ pre, packet_free reg p
        = pre ++ [FreeEvent.freeFrames p.frames, FreeEvent.dropAddr p.src p.dst]) := by
  refine ⟨fun k => count_lookup_packet_free reg p k, ?_, ?_, ?_, ⟨_, rfl⟩⟩
  · intro k d hd
    have hk : packet_has_type p k = true := by simp [packet_has_type, hd]
    have hr := hreg k hk
    rw [count_freeData_packet_free]
    simp [hr, hd]
  · intro k hk d
    have hslot : getSlot p k = none := by
      simpa [packet_has_type] using hk
    rw [count_freeData_packet_free]
    simp [hslot]
  · intro k d hmem
    have hpos := List.count_pos_iff.mpr hmem
    rw [count_freeData_packet_free] at hpos
    by_cases hcond : (reg k).isSome = true ∧ getSlot p k = some d
    · exact hcond.2
    · simp [hcond] at hpos

/-- Witness for C4 at the UDP packet with a full registry: the UDP
slot gets one lookup and one free with its data, the TCP slot none. -/
theorem C4_destroy_free_iff_populated_witness :
    (packet_free regFull pUdp).count (FreeEvent.lookup .udp) = 1
  ∧ (packet_free regFull pUdp).count (FreeEvent.lookup .tcp) = 0
  ∧ (packet_free regFull pUdp).count
      (FreeEvent.freeData .udp (ProtocolData.udpData udpEx)) = 1 := by
  have h := C4_destroy_free_iff_populated regFull pUdp (by decide)
  refine ⟨by simpa using h.1 .udp, by simpa using h.1 .tcp, ?_⟩
  exact h.2.1 .udp (ProtocolData.udpData udpEx) rfl

/-- Claim C5: when a populated slot's dissector is missing from the
registry, packet_free still looks that slot up but invokes no free
capability for it, frees every other populated slot that has a
registered dissector, and still releases the frames and drops the
cached addresses. -/
theorem C5_destroy_skips_unregistered (reg : Registry) (p : Packet)
    (k : ProtocolKind) (hpop : packet_has_type p k = true) (hmiss : reg k = none) :
    (packet_free reg p).count (FreeEvent.lookup k) = 1
  ∧ (∀ d, (packet_free reg p).count (FreeEvent.freeData k d) = 0)
  ∧ (∀ k' d, getSlot p k' = some d → (reg k').isSome = true →
       (packet_free reg p).count (FreeEvent.freeData k' d) = 1)
  ∧ (∃ pre, packet_free reg p
       = pre ++ [FreeEvent.freeFrames p.frames, FreeEvent.dropAddr p.src p.dst]) := by
  refine ⟨?_, ?_, ?_, ⟨_, rfl⟩⟩
  · rw [count_lookup_packet_free, if_pos hpop]
  · intro d
    rw [count_freeData_packet_free]
    simp [hmiss]
  · intro k' d hd hr
    rw [count_freeData_packet_free]
    simp [hr, hd]

/-- Witness for C5: with the UDP dissector unregistered, tearing the
UDP packet down looks the UDP slot up, frees no UDP data, but still
frees the IP slot's data. -/
theorem C5_destroy_skips_unregistered_witness :
    (packet_free regMissUdp pUdp).count (FreeEvent.lookup .udp) = 1
  ∧ (packet_free regMissUdp pUdp).count
      (FreeEvent.freeData .udp (ProtocolData.udpData udpEx)) = 0
  ∧ (packet_free regMissUdp pUdp).count
      (FreeEvent.freeData .ip (ProtocolData.ipData ipEx)) = 1 := by
  have h := C5_destroy_skips_unregistered regMissUdp pUdp .udp rfl rfl
  exact ⟨h.1, h.2.1 (ProtocolData.udpData udpEx),
    h.2.2.1 .ip (ProtocolData.ipData ipEx) rfl rfl⟩

/-- Helper: as long as every prefix of the operation sequence keeps
the reference count positive, running it neither destroys the packet
nor changes it, and the final count is the initial one plus acquires
minus releases. -/
lemma runRefOps_no_early_destroy (ops : List RefOp) :
    ∀ s : PacketObj,
      (∀ pre suf, pre ++ suf = ops →
         pre.count RefOp.rel < pre.count RefOp.acq + s.refcount) →
      (runRefOps s ops).refcount + ops.count RefOp.rel
          = s.refcount + ops.count RefOp.acq
      ∧ (runRefOps s ops).destroyCount = s.destroyCount
      ∧ (runRefOps s ops).packet = s.packet := by
  induction ops with
  | nil =>
    intro s h
    simp [runRefOps]
  | cons op rest ih =>
    intro s h
    cases op with
    | acq =>
      have hrec := ih (packet_ref s) ?hypa
      case hypa =>
        intro pre suf hps
        have hh := h (RefOp.acq :: pre) suf (by rw [← hps]; rfl)
        simp [List.count_cons, packet_ref] at hh ⊢
        omega
      have hstep : runRefOps s (RefOp.acq :: rest) = runRefOps (packet_ref s) rest := rfl
      rw [hstep]
      refine ⟨?_, ?_, ?_⟩
      · have h1 := hrec.1
        simp [packet_ref, List.count_cons] at h1 ⊢
        omega
      · rw [hrec.2.1]; rfl
      · rw [hrec.2.2]; rfl
    | rel =>
      have hge : 2 ≤ s.refcount := by
        have hh := h [RefOp.rel] rest rfl
        simp [List.count_cons] at hh
        omega
      have hne : ¬ s.refcount = 1 := by omega
      have hrc : (packet_unref s).refcount = s.refcount - 1 := by
        simp [packet_unref, hne]
      have hdc : (packet_unref s).destroyCount = s.destroyCount := by
        simp [packet_unref, hne]
      have hpk : (packet_unref s).packet = s.packet := by
        simp [packet_unref, hne]
      have hrec := ih (packet_unref s) ?hypr
      case hypr =>
        intro pre suf hps
        have hh := h (RefOp.rel :: pre) suf (by rw [← hps]; rfl)
        simp [List.count_cons] at hh
        rw [hrc]
        omega
      have hstep : runRefOps s (RefOp.rel :: rest) = runRefOps (packet_unref s) rest := rfl
      rw [hstep]
      refine ⟨?_, ?_, ?_⟩
      · have h1 := hrec.1
        rw [hrc] at h1
        simp [List.count_cons] at h1 ⊢
        omega
      · rw [hrec.2.1, hdc]
      · rw [hrec.2.2, hpk]

/-- Claim C9: from refcount 1, n acquires and n releases in any order
that never exhausts the count leave the packet alive, unchanged and at
refcount 1 with the teardown never run; one further release brings the
count to 0 and runs the destruction exactly once. -/
theorem C9_refcount_roundtrip (s : PacketObj) (ops : List RefOp) (n : Nat)
    (h1 : s.refcount = 1) (h0 : s.destroyCount = 0)
    (hacq : ops.count RefOp.acq = n) (hrel : ops.count RefOp.rel = n)
    (hsafe : ∀ i : Fin (ops.length + 1),
       (ops.take i.1).count RefOp.rel ≤ (ops.take i.1).count RefOp.acq) :
    (runRefOps s ops).refcount = 1
  ∧ (runRefOps s ops).destroyCount = 0
  ∧ (runRefOps s ops).packet = s.packet
  ∧ (packet_unref (runRefOps s ops)).refcount = 0
  ∧ (packet_unref (runRefOps s ops)).destroyCount = 1 := by
  have key := runRefOps_no_early_destroy ops s ?pref
  case pref =>
    intro pre suf hps
    have hlen : pre.length ≤ ops.length := by
      rw [← hps]
      simp
    have hpre : ops.take pre.length = pre := by
      rw [← hps]
      exact List.take_left pre suf
    have hi := hsafe ⟨pre.length, by omega⟩
    rw [hpre] at hi
    omega
  obtain ⟨k1, k2, k3⟩ := key
  have hrc : (runRefOps s ops).refcount = 1 := by omega
  refine ⟨hrc, by omega, k3, ?_, ?_⟩
  · simp [packet_unref, hrc]
  · simp [packet_unref, hrc]
    omega

/-- Witness for C9: two acquires followed by two releases keep the
fresh packet at refcount 1 with no teardown; the next release runs the
teardown once. -/
theorem C9_refcount_roundtrip_witness :
    (runRefOps (packet_new 7) [RefOp.acq, RefOp.acq, RefOp.rel, RefOp.rel]).refcount = 1
  ∧ (packet_unref (runRefOps (packet_new 7)
      [RefOp.acq, RefOp.acq, RefOp.rel, RefOp.rel])).destroyCount = 1 := by
  have h := C9_refcount_roundtrip (packet_new 7)
    [RefOp.acq, RefOp.acq, RefOp.rel, RefOp.rel] 2 rfl rfl rfl rfl (by decide)
  exact ⟨h.1, h.2.2.2.2⟩

end Sngrep
